import Mathlib

/-!
Verification development for the Stochastic_pStokes repository.

The repository drives a Monte Carlo study of a stochastic p-Stokes system:
`src/src/algorithms/p_stokes/parabolic.py` contains the time-stepping
algorithms, `src/run_TH3.py` the driver loop, `src/src/predefined_data.py`
and `src/src/discretisation/mesh.py` the configuration-string converters.

Shallow embedding conventions:
* A firedrake `Function` is embedded as its vector of degrees of freedom
  over the rationals (`FEFunction := List ℚ`); exact rational arithmetic
  stands for real-number semantics of Python floats.
* A Python `dict[float, Function]` with insertion order is embedded as an
  association list (`Traj`); `dictInsert` mirrors `d[k] = v` (overwrite in
  place if the key is present, append otherwise).
* The external firedrake nonlinear solve is a black box; it is embedded as
  an `Oracle`: a convergence flag plus a solution for the default solve and
  for the retry solve.  The data handed to the solver is exactly the data
  appearing in the algorithm's variational form (`formData`).
* Exceptions are embedded as an `err : Option PyError` component together
  with the state at raise time.
-/

/-- Degrees of freedom of a discrete field (a firedrake `Function`). -/
abbrev FEFunction : Type := List ℚ

/-- A `time -> field` Python dict in insertion order. -/
abbrev Traj : Type := List (ℚ × FEFunction)

/-- Dot product of two dof vectors (truncating at the shorter one). -/
def dotQ (a b : List ℚ) : ℚ := (List.zipWith (· * ·) a b).sum

/-- Scalar multiple of a dof vector. -/
def smulQ (c : ℚ) (v : FEFunction) : FEFunction := v.map (fun x => c * x)

/-- Componentwise difference of dof vectors. -/
def subQ (a b : FEFunction) : FEFunction := List.zipWith (· - ·) a b

/-- Componentwise average of dof vectors, `(a + b) / 2.0`. -/
def avgQ (a b : FEFunction) : FEFunction := List.zipWith (fun x y => (x + y) / 2) a b

/-- The parts of the source `SpaceDiscretisation` object that the embedded
algorithms read: the dimension of the velocity dof vector, the integration
weights of the pressure basis (so that `assemble(inner(p,1)*dx) = dotQ w p`),
and the dof representation of the constant-one pressure field (so that
`Function(pressure_space).assign(Constant(c))` has dofs `smulQ c ones`). -/
structure SpaceDiscretisation where
  vdim : ℕ
  w : List ℚ
  ones : List ℚ
deriving DecidableEq

/-- The zero velocity field, `Function(space_disc.mixed_space).subfunctions` part. -/
def zeroVel (sp : SpaceDiscretisation) : FEFunction := List.replicate sp.vdim 0

/-- The zero pressure field (`pold` before any assignment). -/
def zeroPres (sp : SpaceDiscretisation) : FEFunction := List.replicate sp.ones.length 0

/-- `assemble(inner(p, 1)*dx)`: the integral of a discrete pressure. -/
def integralP (sp : SpaceDiscretisation) (p : FEFunction) : ℚ := dotQ sp.w p

/-- Dof vector of `Function(space_disc.pressure_space).assign(Constant(c))`. -/
def constRep (sp : SpaceDiscretisation) (c : ℚ) : FEFunction := smulQ c sp.ones

/-- The pressure mean-correction performed after every solve:
`pressure.dat.data - Function(pressure_space).assign(mean_p).dat.data`
with `mean_p = assemble(inner(p,1)*dx)` (parabolic.py lines 127-129). -/
def meanCorrect (sp : SpaceDiscretisation) (p : FEFunction) : FEFunction :=
  subQ p (constRep sp (integralP sp p))

/-- Association-list lookup, embedding a Python dict read `d[k]`. -/
def assocGet {K A : Type} [DecidableEq K] : List (K × A) → K → Option A
  | [], _ => none
  | (k', v) :: rest, k => if k' = k then some v else assocGet rest k

/-- The keys of a trajectory dict, in insertion order. -/
def dictKeys (d : Traj) : List ℚ := d.map Prod.fst

/-- Python dict assignment `d[k] = v`: overwrite in place if `k` is already a
key, append at the end otherwise. -/
def dictInsert (d : Traj) (k : ℚ) (v : FEFunction) : Traj :=
  if k ∈ dictKeys d then d.map (fun kv => if kv.1 = k then (k, v) else kv)
  else d ++ [(k, v)]

/-- Consecutive differences of a time grid. -/
def increments : List ℚ → List ℚ
  | [] => []
  | [_] => []
  | a :: b :: rest => (b - a) :: increments (b :: rest)

/-- Modelled from the spec: `trajectory_to_incremets` lives in
`src/discretisation/time.py`, which is not under `src/`.  Every algorithm
calls `initial_time, time_increments = trajectory_to_incremets(time_grid)`
and then replays the grid by `time += time_increments[index]`; the spec
describes a time grid as a monotonically increasing sequence of float
nodes starting at the initial time.  Hence the pair is the first grid node
together with the consecutive differences of the nodes. -/
def trajectory_to_incremets (time_grid : List ℚ) : ℚ × List ℚ :=
  (time_grid.headD 0, increments time_grid)

/-- Python exception kinds raised by the embedded code. -/
inductive PyError
  | notImplementedError
  | valueError
  | keyError
  | indexError
  | convergenceError
deriving DecidableEq

/-- The solver-parameter dictionaries passed to `solve`:
no `solver_parameters` argument (the blackbox default), `enable_monitoring`,
or `direct_solve_details` (both imported from `src.algorithms.solver_configs`;
they are distinct configuration objects, whose contents are external). -/
inductive SolverParams
  | blackboxDefault
  | enable_monitoring
  | direct_solve_details
deriving DecidableEq

/-- Names of the p-Stokes algorithms of `parabolic.py`, also used to tag the
variational form each algorithm assembles. -/
inductive AlgName
  | implicitEuler_mixedFEM
  | implicitEuler_mixedFEM_linearMulti
  | implicitEuler_mixedFEM_linearMulti_withSymGrad
  | implicitEuler_mixedFEM_linearMulti_withSymGrad_approxOfAverages
  | CrankNicolson_mixedFEM_strato_transportNoise
  | CrankNicolson_mixedFEM_strato_transportNoise_withTemamsym
  | impliciteEuler_mixedFEM_ito_transportNoise
  | impliciteEuler_mixedFEM_strato_transportNoise
  | impliciteEuler_mixedFEM_strato_transportNoise_withTemamsym
  | CrankNicolson_mixedFEM_strato_transportNoise_withAntisym
deriving DecidableEq

/-- The scalar/field inputs shared by all algorithms (`noise_coefficient`,
`p_value`, `kappa_value`, `Reynolds_number`, `noise_intensity`). -/
structure GlobalIn where
  noise_coefficient : FEFunction
  noise_intensity : ℚ
  p_value : ℚ
  kappa_value : ℚ
  Reynolds_number : ℚ
deriving DecidableEq

/-- The external firedrake nonlinear solve, abstracted per variational-form
data `F`: whether the default blackbox solve converges, its solution, and
the same for the second solve with explicit solver parameters. -/
structure Oracle (F : Type) where
  defaultOk : F → Bool
  solveDefault : F → FEFunction × FEFunction
  retryOk : F → Bool
  solveRetry : F → FEFunction × FEFunction

/-- What distinguishes one p-Stokes algorithm from another inside the shared
time-stepping skeleton: the state carried across steps (`S`), the data its
variational form reads (`formData`), the solver parameters of the retry
solve in the `except ConvergenceError` branch, and how the state is updated
from the new velocity after a step. -/
structure AlgoSpec (F S : Type) where
  initState : FEFunction → S
  uoldOf : S → FEFunction
  formData : S → FEFunction → ℚ → ℚ → GlobalIn → F
  retryParams : SolverParams
  updState : ℕ → S → FEFunction → S

/-- Result of running an algorithm: the per-step solver attempts, the two
trajectory dicts at return (or raise) time, and the raised exception if any. -/
structure RunOut where
  log : List (List SolverParams)
  tv : Traj
  tp : Traj
  err : Option PyError
deriving DecidableEq

/-- The solver attempts one time step makes: the default solve, then — if and
only if the default solve raises `ConvergenceError` — one retry with the
algorithm's retry parameters. -/
def attemptsFor {F S : Type} (A : AlgoSpec F S) (orac : Oracle F) (fd : F) :
    List SolverParams :=
  if orac.defaultOk fd then [SolverParams.blackboxDefault]
  else [SolverParams.blackboxDefault, A.retryParams]

/-- The `if time_to_det_forcing:` block at the top of each loop body:
`None` and the empty dict are falsy (keep the current forcing); otherwise
look the nodal time up and raise `KeyError` when absent. -/
def resolveForcing (tdf : Option Traj) (detf : FEFunction) (t : ℚ) :
    Except PyError FEFunction :=
  match tdf with
  | none => Except.ok detf
  | some l =>
    if l.isEmpty then Except.ok detf
    else
      match assocGet l t with
      | some f => Except.ok f
      | none => Except.error PyError.keyError

/-- The shared time-stepping loop of every p-Stokes algorithm
(parabolic.py, e.g. lines 106-137): per index, assign `dW` and `tau`,
advance the nodal time, resolve the deterministic forcing, solve (default
first, retry with the algorithm's parameters on `ConvergenceError`),
mean-correct the pressure, store both snapshots, update the state. -/
def runLoop {F S : Type} (A : AlgoSpec F S) (orac : Oracle F)
    (sp : SpaceDiscretisation) (g : GlobalIn) (tdf : Option Traj) :
    ℕ → ℚ → S → FEFunction → List ℚ → List ℚ →
    List (List SolverParams) → Traj → Traj → RunOut
  | _, _, _, _, [], _, lg, tv, tp => ⟨lg, tv, tp, none⟩
  | _, _, _, _, _ :: _, [], lg, tv, tp => ⟨lg, tv, tp, some PyError.indexError⟩
  | idx, time, st, detf, inc :: incs, dW :: ns, lg, tv, tp =>
    match resolveForcing tdf detf (time + inc) with
    | Except.error e => ⟨lg, tv, tp, some e⟩
    | Except.ok detf' =>
      let fd := A.formData st detf' inc dW g
      if orac.defaultOk fd then
        runLoop A orac sp g tdf (idx + 1) (time + inc)
          (A.updState idx st (orac.solveDefault fd).1) detf' incs ns
          (lg ++ [[SolverParams.blackboxDefault]])
          (dictInsert tv (time + inc) (orac.solveDefault fd).1)
          (dictInsert tp (time + inc) (meanCorrect sp (orac.solveDefault fd).2))
      else if orac.retryOk fd then
        runLoop A orac sp g tdf (idx + 1) (time + inc)
          (A.updState idx st (orac.solveRetry fd).1) detf' incs ns
          (lg ++ [[SolverParams.blackboxDefault, A.retryParams]])
          (dictInsert tv (time + inc) (orac.solveRetry fd).1)
          (dictInsert tp (time + inc) (meanCorrect sp (orac.solveRetry fd).2))
      else ⟨lg ++ [[SolverParams.blackboxDefault, A.retryParams]], tv, tp,
            some PyError.convergenceError⟩

/-- The shared outer structure of every p-Stokes algorithm: store the
initial-time snapshots (`uold` = initial condition, `pold` = zero), raise
`ValueError` when the number of time increments differs from the number of
noise steps, otherwise run the time-stepping loop. -/
def runAlgo {F S : Type} (A : AlgoSpec F S) (sp : SpaceDiscretisation)
    (orac : Oracle F) (time_grid noise_steps : List ℚ) (g : GlobalIn)
    (initial_condition : FEFunction) (tdf : Option Traj) : RunOut :=
  let t0 := (trajectory_to_incremets time_grid).1
  let incs := (trajectory_to_incremets time_grid).2
  let st0 := A.initState initial_condition
  let tv0 := dictInsert [] t0 (A.uoldOf st0)
  let tp0 := dictInsert [] t0 (zeroPres sp)
  if incs.length = noise_steps.length then
    runLoop A orac sp g tdf 0 t0 st0 (zeroVel sp) incs noise_steps [] tv0 tp0
  else ⟨[], tv0, tp0, some PyError.valueError⟩

/-- Form data of `implicitEuler_mixedFEM` (lines 80-85): the form reads
`uold`, `det_forcing`, `tau`, `dW`, `noise_coefficient`, `p_value`,
`kappa_value` and `Reynolds_number`. -/
abbrev MixedFEMData : Type :=
  AlgName × FEFunction × FEFunction × ℚ × ℚ × FEFunction × ℚ × ℚ × ℚ

/-- Form data of the two linear multiplicative-noise algorithms
(lines 175-180 and 270-275): the noise term is
`noise_intensity*dW*inner(uold, v)`; the form reads `uold`, `det_forcing`,
`tau`, `dW`, `noise_intensity`, `p_value`, `kappa_value`,
`Reynolds_number` — and NOT `noise_coefficient`. -/
abbrev LinearMultiData : Type :=
  AlgName × FEFunction × FEFunction × ℚ × ℚ × ℚ × ℚ × ℚ × ℚ

/-- Form data of `implicitEuler_mixedFEM_linearMulti_withSymGrad_approxOfAverages`
(lines 373-380): reads `uint`, `uold`, `det_forcing`, `tau`, `dW`,
`noise_intensity`, `noise_coefficient`, `p_value`, `kappa_value`,
`Reynolds_number`. -/
abbrev ApproxAvgData : Type :=
  AlgName × FEFunction × FEFunction × FEFunction × ℚ × ℚ × ℚ × FEFunction × ℚ × ℚ × ℚ

/-- Form data of the transport-noise algorithms (e.g. lines 471-476): they
read `uold`, `det_forcing`, `tau`, `dW`, `noise_coefficient`, `p_value`,
`kappa_value`, `Reynolds_number`. -/
abbrev TransportData : Type := MixedFEMData

/-- Skeleton instance shared by all algorithms whose only carried state is
`uold` with `uold.assign(velocity)` after each step. -/
def standardSpec {F : Type}
    (formData : FEFunction → FEFunction → ℚ → ℚ → GlobalIn → F)
    (retryParams : SolverParams) : AlgoSpec F FEFunction :=
  ⟨fun u0 => u0, fun s => s, formData, retryParams, fun _ _ v => v⟩

/-- `implicitEuler_mixedFEM` as a skeleton instance (lines 46-138). -/
def implicitEuler_mixedFEM_spec : AlgoSpec MixedFEMData FEFunction :=
  standardSpec
    (fun uold detf tau dW g =>
      (AlgName.implicitEuler_mixedFEM, uold, detf, tau, dW,
       g.noise_coefficient, g.p_value, g.kappa_value, g.Reynolds_number))
    SolverParams.enable_monitoring

/-- `implicitEuler_mixedFEM_linearMulti` as a skeleton instance (lines 140-233). -/
def implicitEuler_mixedFEM_linearMulti_spec : AlgoSpec LinearMultiData FEFunction :=
  standardSpec
    (fun uold detf tau dW g =>
      (AlgName.implicitEuler_mixedFEM_linearMulti, uold, detf, tau, dW,
       g.noise_intensity, g.p_value, g.kappa_value, g.Reynolds_number))
    SolverParams.enable_monitoring

/-- `implicitEuler_mixedFEM_linearMulti_withSymGrad` as a skeleton instance
(lines 235-328); same form data as `linearMulti` but assembling
`S_tensor_sym`/`epsilon`, recorded in the tag. -/
def implicitEuler_mixedFEM_linearMulti_withSymGrad_spec :
    AlgoSpec LinearMultiData FEFunction :=
  standardSpec
    (fun uold detf tau dW g =>
      (AlgName.implicitEuler_mixedFEM_linearMulti_withSymGrad, uold, detf, tau, dW,
       g.noise_intensity, g.p_value, g.kappa_value, g.Reynolds_number))
    SolverParams.enable_monitoring

/-- `implicitEuler_mixedFEM_linearMulti_withSymGrad_approxOfAverages`
(lines 330-435): carries `(uold, uint)`, both initialised to the initial
condition; after the step at `index`, `uold.assign(uint)` only when
`index >= 1`, then `uint.assign(velocity)`; the retry solve passes
`solver_parameters=direct_solve_details` (line 420). -/
def implicitEuler_mixedFEM_linearMulti_withSymGrad_approxOfAverages_spec :
    AlgoSpec ApproxAvgData (FEFunction × FEFunction) where
  initState := fun u0 => (u0, u0)
  uoldOf := fun s => s.1
  formData := fun s detf tau dW g =>
    (AlgName.implicitEuler_mixedFEM_linearMulti_withSymGrad_approxOfAverages,
     s.2, s.1, detf, tau, dW, g.noise_intensity, g.noise_coefficient,
     g.p_value, g.kappa_value, g.Reynolds_number)
  retryParams := SolverParams.direct_solve_details
  updState := fun idx s v => (if 1 ≤ idx then s.2 else s.1, v)

/-- `CrankNicolson_mixedFEM_strato_transportNoise` (lines 437-529). -/
def CrankNicolson_mixedFEM_strato_transportNoise_spec :
    AlgoSpec TransportData FEFunction :=
  standardSpec
    (fun uold detf tau dW g =>
      (AlgName.CrankNicolson_mixedFEM_strato_transportNoise, uold, detf, tau, dW,
       g.noise_coefficient, g.p_value, g.kappa_value, g.Reynolds_number))
    SolverParams.enable_monitoring

/-- `CrankNicolson_mixedFEM_strato_transportNoise_withTemamsym` (lines 531-624). -/
def CrankNicolson_mixedFEM_strato_transportNoise_withTemamsym_spec :
    AlgoSpec TransportData FEFunction :=
  standardSpec
    (fun uold detf tau dW g =>
      (AlgName.CrankNicolson_mixedFEM_strato_transportNoise_withTemamsym,
       uold, detf, tau, dW,
       g.noise_coefficient, g.p_value, g.kappa_value, g.Reynolds_number))
    SolverParams.enable_monitoring

/-- `impliciteEuler_mixedFEM_ito_transportNoise` (lines 728-820). -/
def impliciteEuler_mixedFEM_ito_transportNoise_spec :
    AlgoSpec TransportData FEFunction :=
  standardSpec
    (fun uold detf tau dW g =>
      (AlgName.impliciteEuler_mixedFEM_ito_transportNoise, uold, detf, tau, dW,
       g.noise_coefficient, g.p_value, g.kappa_value, g.Reynolds_number))
    SolverParams.enable_monitoring

/-- `impliciteEuler_mixedFEM_strato_transportNoise` (lines 823-915). -/
def impliciteEuler_mixedFEM_strato_transportNoise_spec :
    AlgoSpec TransportData FEFunction :=
  standardSpec
    (fun uold detf tau dW g =>
      (AlgName.impliciteEuler_mixedFEM_strato_transportNoise, uold, detf, tau, dW,
       g.noise_coefficient, g.p_value, g.kappa_value, g.Reynolds_number))
    SolverParams.enable_monitoring

/-- `impliciteEuler_mixedFEM_strato_transportNoise_withTemamsym` (lines 917-1010). -/
def impliciteEuler_mixedFEM_strato_transportNoise_withTemamsym_spec :
    AlgoSpec TransportData FEFunction :=
  standardSpec
    (fun uold detf tau dW g =>
      (AlgName.impliciteEuler_mixedFEM_strato_transportNoise_withTemamsym,
       uold, detf, tau, dW,
       g.noise_coefficient, g.p_value, g.kappa_value, g.Reynolds_number))
    SolverParams.enable_monitoring

/-- `CrankNicolson_mixedFEM_strato_transportNoise_withAntisym` (lines 627-725);
the velocity/pressure stepping is the standard skeleton, the extra midpoint
trajectory is built in the `_return` definition below. -/
def CrankNicolson_mixedFEM_strato_transportNoise_withAntisym_spec :
    AlgoSpec TransportData FEFunction :=
  standardSpec
    (fun uold detf tau dW g =>
      (AlgName.CrankNicolson_mixedFEM_strato_transportNoise_withAntisym,
       uold, detf, tau, dW,
       g.noise_coefficient, g.p_value, g.kappa_value, g.Reynolds_number))
    SolverParams.enable_monitoring

/-- Embedded `implicitEuler_mixedFEM`. -/
def implicitEuler_mixedFEM (sp : SpaceDiscretisation) (orac : Oracle MixedFEMData)
    (time_grid noise_steps : List ℚ) (g : GlobalIn)
    (initial_condition : FEFunction) (tdf : Option Traj) : RunOut :=
  runAlgo implicitEuler_mixedFEM_spec sp orac time_grid noise_steps g
    initial_condition tdf

/-- Embedded `implicitEuler_mixedFEM_linearMulti`. -/
def implicitEuler_mixedFEM_linearMulti (sp : SpaceDiscretisation)
    (orac : Oracle LinearMultiData) (time_grid noise_steps : List ℚ)
    (g : GlobalIn) (initial_condition : FEFunction) (tdf : Option Traj) : RunOut :=
  runAlgo implicitEuler_mixedFEM_linearMulti_spec sp orac time_grid noise_steps g
    initial_condition tdf

/-- Embedded `implicitEuler_mixedFEM_linearMulti_withSymGrad`. -/
def implicitEuler_mixedFEM_linearMulti_withSymGrad (sp : SpaceDiscretisation)
    (orac : Oracle LinearMultiData) (time_grid noise_steps : List ℚ)
    (g : GlobalIn) (initial_condition : FEFunction) (tdf : Option Traj) : RunOut :=
  runAlgo implicitEuler_mixedFEM_linearMulti_withSymGrad_spec sp orac time_grid
    noise_steps g initial_condition tdf

/-- Embedded `implicitEuler_mixedFEM_linearMulti_withSymGrad_approxOfAverages`. -/
def implicitEuler_mixedFEM_linearMulti_withSymGrad_approxOfAverages
    (sp : SpaceDiscretisation) (orac : Oracle ApproxAvgData)
    (time_grid noise_steps : List ℚ) (g : GlobalIn)
    (initial_condition : FEFunction) (tdf : Option Traj) : RunOut :=
  runAlgo implicitEuler_mixedFEM_linearMulti_withSymGrad_approxOfAverages_spec
    sp orac time_grid noise_steps g initial_condition tdf

/-- Embedded `CrankNicolson_mixedFEM_strato_transportNoise`. -/
def CrankNicolson_mixedFEM_strato_transportNoise (sp : SpaceDiscretisation)
    (orac : Oracle TransportData) (time_grid noise_steps : List ℚ)
    (g : GlobalIn) (initial_condition : FEFunction) (tdf : Option Traj) : RunOut :=
  runAlgo CrankNicolson_mixedFEM_strato_transportNoise_spec sp orac time_grid
    noise_steps g initial_condition tdf

/-- Embedded `impliciteEuler_mixedFEM_ito_transportNoise`. -/
def impliciteEuler_mixedFEM_ito_transportNoise (sp : SpaceDiscretisation)
    (orac : Oracle TransportData) (time_grid noise_steps : List ℚ)
    (g : GlobalIn) (initial_condition : FEFunction) (tdf : Option Traj) : RunOut :=
  runAlgo impliciteEuler_mixedFEM_ito_transportNoise_spec sp orac time_grid
    noise_steps g initial_condition tdf

/-- Embedded `impliciteEuler_mixedFEM_strato_transportNoise`. -/
def impliciteEuler_mixedFEM_strato_transportNoise (sp : SpaceDiscretisation)
    (orac : Oracle TransportData) (time_grid noise_steps : List ℚ)
    (g : GlobalIn) (initial_condition : FEFunction) (tdf : Option Traj) : RunOut :=
  runAlgo impliciteEuler_mixedFEM_strato_transportNoise_spec sp orac time_grid
    noise_steps g initial_condition tdf

/-- Embedded `CrankNicolson_mixedFEM_strato_transportNoise_withTemamsym`. -/
def CrankNicolson_mixedFEM_strato_transportNoise_withTemamsym
    (sp : SpaceDiscretisation) (orac : Oracle TransportData)
    (time_grid noise_steps : List ℚ) (g : GlobalIn)
    (initial_condition : FEFunction) (tdf : Option Traj) : RunOut :=
  runAlgo CrankNicolson_mixedFEM_strato_transportNoise_withTemamsym_spec sp orac
    time_grid noise_steps g initial_condition tdf

/-- Embedded `impliciteEuler_mixedFEM_strato_transportNoise_withTemamsym`. -/
def impliciteEuler_mixedFEM_strato_transportNoise_withTemamsym
    (sp : SpaceDiscretisation) (orac : Oracle TransportData)
    (time_grid noise_steps : List ℚ) (g : GlobalIn)
    (initial_condition : FEFunction) (tdf : Option Traj) : RunOut :=
  runAlgo impliciteEuler_mixedFEM_strato_transportNoise_withTemamsym_spec sp orac
    time_grid noise_steps g initial_condition tdf

/-- Embedded `CrankNicolson_mixedFEM_strato_transportNoise_withAntisym`
(velocity and pressure dicts; the midpoint dict is added in `_return`). -/
def CrankNicolson_mixedFEM_strato_transportNoise_withAntisym
    (sp : SpaceDiscretisation) (orac : Oracle TransportData)
    (time_grid noise_steps : List ℚ) (g : GlobalIn)
    (initial_condition : FEFunction) (tdf : Option Traj) : RunOut :=
  runAlgo CrankNicolson_mixedFEM_strato_transportNoise_withAntisym_spec sp orac
    time_grid noise_steps g initial_condition tdf

/-- Midpoint entries after the initial one: at each stored time,
`velocity_mid.dat.data = (velocity.dat.data + uold.dat.data)/2.0`
(lines 717-719), where `uold` is the velocity stored at the previous time. -/
def midpointsAux : FEFunction → Traj → Traj
  | _, [] => []
  | prev, (t, v) :: rest => (t, avgQ v prev) :: midpointsAux v rest

/-- The `time_to_velocity_midpoints` dict of `withAntisym`: at the initial
time it stores `deepcopy(det_forcing)` — the zero velocity field at that
point (line 680) — and then one midpoint per step. -/
def midpointsOf (z : FEFunction) : Traj → Traj
  | [] => []
  | (t0, v0) :: rest => (t0, z) :: midpointsAux v0 rest

/-- The tuple returned by `CrankNicolson_mixedFEM_strato_transportNoise_withAntisym`
(line 725): `return time_to_velocity, time_to_pressure, time_to_velocity_midpoints`
— three dicts, not two. -/
def CrankNicolson_mixedFEM_strato_transportNoise_withAntisym_return
    (sp : SpaceDiscretisation) (orac : Oracle TransportData)
    (time_grid noise_steps : List ℚ) (g : GlobalIn)
    (initial_condition : FEFunction) (tdf : Option Traj) : List Traj :=
  [(CrankNicolson_mixedFEM_strato_transportNoise_withAntisym sp orac time_grid
      noise_steps g initial_condition tdf).tv,
   (CrankNicolson_mixedFEM_strato_transportNoise_withAntisym sp orac time_grid
      noise_steps g initial_condition tdf).tp,
   midpointsOf (zeroVel sp)
     (CrankNicolson_mixedFEM_strato_transportNoise_withAntisym sp orac time_grid
        noise_steps g initial_condition tdf).tv]

/-- The tuple returned by `implicitEuler_mixedFEM` (line 138):
`return time_to_velocity, time_to_pressure` — two dicts. -/
def implicitEuler_mixedFEM_return (sp : SpaceDiscretisation)
    (orac : Oracle MixedFEMData) (time_grid noise_steps : List ℚ) (g : GlobalIn)
    (initial_condition : FEFunction) (tdf : Option Traj) : List Traj :=
  [(implicitEuler_mixedFEM sp orac time_grid noise_steps g initial_condition tdf).tv,
   (implicitEuler_mixedFEM sp orac time_grid noise_steps g initial_condition tdf).tp]

/-- The tuple unpacking performed by `generate_one` (run_TH3.py lines 50-60):
`ref_to_time_to_velocity[level], ref_to_time_to_pressure[level] = algorithm(...)`
succeeds exactly when the returned tuple has two components, raising
`ValueError` otherwise. -/
def unpackPair {α : Type} : List α → Except PyError (α × α)
  | [a, b] => Except.ok (a, b)
  | _ => Except.error PyError.valueError

/-- `get_algorithm_by_name` (parabolic.py lines 19-43): string match over the
ten available algorithm names, `NotImplementedError` otherwise. -/
def get_algorithm_by_name (algorithm_name : String) : Except PyError AlgName :=
  if algorithm_name = "Implicit Euler mixed FEM" then
    Except.ok AlgName.implicitEuler_mixedFEM
  else if algorithm_name = "Implicit Euler mixed FEM linear multi Noise" then
    Except.ok AlgName.implicitEuler_mixedFEM_linearMulti
  else if algorithm_name = "Implicit Euler mixed FEM linear multi Noise with sym Grad" then
    Except.ok AlgName.implicitEuler_mixedFEM_linearMulti_withSymGrad
  else if algorithm_name = "Implicit Euler mixed FEM linear multi Noise with sym Grad and approx of Averages" then
    Except.ok AlgName.implicitEuler_mixedFEM_linearMulti_withSymGrad_approxOfAverages
  else if algorithm_name = "Crank Nicolson mixed FEM Stratonovich Transport Noise" then
    Except.ok AlgName.CrankNicolson_mixedFEM_strato_transportNoise
  else if algorithm_name = "Crank Nicolson mixed FEM Stratonovich Transport Noise with Temam Symmetrisation" then
    Except.ok AlgName.CrankNicolson_mixedFEM_strato_transportNoise_withTemamsym
  else if algorithm_name = "Implicit Euler mixed FEM Ito Transport Noise" then
    Except.ok AlgName.impliciteEuler_mixedFEM_ito_transportNoise
  else if algorithm_name = "Implicit Euler mixed FEM Stratonovich Transport Noise" then
    Except.ok AlgName.impliciteEuler_mixedFEM_strato_transportNoise
  else if algorithm_name = "Implicit Euler mixed FEM Stratonovich Transport Noise with Temam Symmetrisation" then
    Except.ok AlgName.impliciteEuler_mixedFEM_strato_transportNoise_withTemamsym
  else if algorithm_name = "Crank Nicolson mixed FEM Stratonovich Transport Noise with anti-symmetrisation" then
    Except.ok AlgName.CrankNicolson_mixedFEM_strato_transportNoise_withAntisym
  else Except.error PyError.notImplementedError

/-- The algorithm names for which `get_algorithm_by_name` returns an
implementation. -/
def recognizedAlgorithmNames : List String :=
  ["Implicit Euler mixed FEM",
   "Implicit Euler mixed FEM linear multi Noise",
   "Implicit Euler mixed FEM linear multi Noise with sym Grad",
   "Implicit Euler mixed FEM linear multi Noise with sym Grad and approx of Averages",
   "Crank Nicolson mixed FEM Stratonovich Transport Noise",
   "Crank Nicolson mixed FEM Stratonovich Transport Noise with Temam Symmetrisation",
   "Implicit Euler mixed FEM Ito Transport Noise",
   "Implicit Euler mixed FEM Stratonovich Transport Noise",
   "Implicit Euler mixed FEM Stratonovich Transport Noise with Temam Symmetrisation",
   "Crank Nicolson mixed FEM Stratonovich Transport Noise with anti-symmetrisation"]

/-- The field constructions returned by `get_function`
(predefined_data.py lines 21-66); the dof values of each construction come
from the external FEM stack, the selection itself is what is embedded. -/
inductive PredefName
  | zero
  | hillWave
  | nonSolenoidal
  | solenoidal
  | polynomial
  | polynomialNoBC
  | polynomialNoDiv
  | hillWaveStokesProjected
  | nonSolenoidalStokesProjected
  | solenoidalStokesProjected
  | polynomialStokesProjected
  | zeroStokesProjected
  | hillWaveHLProjected
  | nonSolenoidalHLProjected
  | solenoidalHLProjected
  | polynomialHLProjected
  | zeroHLProjectedWithBC
deriving DecidableEq

/-- `get_function` (predefined_data.py lines 9-66): string match over the
seventeen available field names, `NotImplementedError` otherwise. -/
def get_function (name_requested_function : String) : Except PyError PredefName :=
  if name_requested_function = "zero" then Except.ok PredefName.zero
  else if name_requested_function = "x: hill, y: wave" then Except.ok PredefName.hillWave
  else if name_requested_function = "non-solenoidal" then Except.ok PredefName.nonSolenoidal
  else if name_requested_function = "solenoidal" then Except.ok PredefName.solenoidal
  else if name_requested_function = "polynomial" then Except.ok PredefName.polynomial
  else if name_requested_function = "polynomial - no BC" then Except.ok PredefName.polynomialNoBC
  else if name_requested_function = "polynomial - no div" then Except.ok PredefName.polynomialNoDiv
  else if name_requested_function = "x: hill, y: wave - Stokes projected" then
    Except.ok PredefName.hillWaveStokesProjected
  else if name_requested_function = "non-solenoidal - Stokes projected" then
    Except.ok PredefName.nonSolenoidalStokesProjected
  else if name_requested_function = "solenoidal - Stokes projected" then
    Except.ok PredefName.solenoidalStokesProjected
  else if name_requested_function = "polynomial - Stokes projected" then
    Except.ok PredefName.polynomialStokesProjected
  else if name_requested_function = "zero - Stokes projected" then
    Except.ok PredefName.zeroStokesProjected
  else if name_requested_function = "x: hill, y: wave - HL projected" then
    Except.ok PredefName.hillWaveHLProjected
  else if name_requested_function = "non-solenoidal - HL projected" then
    Except.ok PredefName.nonSolenoidalHLProjected
  else if name_requested_function = "solenoidal - HL projected" then
    Except.ok PredefName.solenoidalHLProjected
  else if name_requested_function = "polynomial - HL projected" then
    Except.ok PredefName.polynomialHLProjected
  else if name_requested_function = "zero - HL projected with BC" then
    Except.ok PredefName.zeroHLProjectedWithBC
  else Except.error PyError.notImplementedError

/-- The field names for which `get_function` returns an implementation. -/
def recognizedFunctionNames : List String :=
  ["zero", "x: hill, y: wave", "non-solenoidal", "solenoidal", "polynomial",
   "polynomial - no BC", "polynomial - no div",
   "x: hill, y: wave - Stokes projected", "non-solenoidal - Stokes projected",
   "solenoidal - Stokes projected", "polynomial - Stokes projected",
   "zero - Stokes projected",
   "x: hill, y: wave - HL projected", "non-solenoidal - HL projected",
   "solenoidal - HL projected", "polynomial - HL projected",
   "zero - HL projected with BC"]

/-- The meshes `get_mesh` can return (mesh.py lines 9-29). -/
inductive MeshImpl
  | unitSquareMesh32
  | nonSingularLow
  | nonSingularIntermediate
  | nonSingularHigh
deriving DecidableEq

/-- `get_mesh` (mesh.py lines 9-29): `"unit square"` (any resolution) and
`"unit_square_non_singular"` with resolution `low`/`intermediate`/`high`
return meshes; the `"unit L-shape"` arm and every other name raise
`NotImplementedError`, as does an unknown resolution. -/
def get_mesh (name_mesh : String) (space_resolution : String) :
    Except PyError MeshImpl :=
  if name_mesh = "unit square" then Except.ok MeshImpl.unitSquareMesh32
  else if name_mesh = "unit_square_non_singular" then
    (if space_resolution = "low" then Except.ok MeshImpl.nonSingularLow
     else if space_resolution = "intermediate" then Except.ok MeshImpl.nonSingularIntermediate
     else if space_resolution = "high" then Except.ok MeshImpl.nonSingularHigh
     else Except.error PyError.notImplementedError)
  else if name_mesh = "unit L-shape" then Except.error PyError.notImplementedError
  else Except.error PyError.notImplementedError

/-- The `(name_mesh, space_resolution)` pairs for which `get_mesh` returns a
mesh implementation. -/
def recognizedMeshConfig (name_mesh space_resolution : String) : Bool :=
  name_mesh = "unit square" ∨
    (name_mesh = "unit_square_non_singular" ∧
      (space_resolution = "low" ∨ space_resolution = "intermediate" ∨
       space_resolution = "high"))

/-- A mapping keyed by refinement level. -/
abbrev LvlMap (α : Type) : Type := List (ℕ × α)

/-- The per-iteration output of `generate_one` (run_TH3.py lines 44-61):
noise increments, velocity trajectory and pressure trajectory per level. -/
structure Sample where
  noise : LvlMap (List ℚ)
  vel : LvlMap Traj
  pres : LvlMap Traj

/-- Modelled from the spec: `TimeDiscretisation` lives in
`src/discretisation/time.py`, which is not under `src/`.  `generate`
constructs it from `INITIAL_TIME`, `END_TIME` and `REFINEMENT_LEVELS`
(run_TH3.py line 84) and reads back `refinement_levels`; per the spec,
levels are ordered by increasing resolution. -/
structure TimeDiscretisation where
  initial_time : ℚ
  end_time : ℚ
  refinement_levels : List ℕ

/-- `REFINEMENT_LEVELS = list(range(2, 10))` (global_configs.py line 24). -/
def REFINEMENT_LEVELS : List ℕ := List.range' 2 8

/-- Python negative indexing `l[-1]`: the last element, `IndexError` (none)
on an empty list. -/
def pyNegOneIndex {α : Type} (l : List α) : Option α := l.getLast?

/-- `time_to_fine_velocity = ref_to_time_to_velocity[time_disc.refinement_levels[-1]]`
(run_TH3.py lines 143 and 145): the reference trajectory handed to
`TimeComparison.update` is the one stored at the last refinement level. -/
def driverReference (td : TimeDiscretisation) (refTo : LvlMap Traj) : Option Traj :=
  (pyNegOneIndex td.refinement_levels).bind (fun lvl => assocGet refTo lvl)

/-- Modelled from the spec: the RunningAggregator state of §3/§4.1
(`src/postprocess` is not under `src/`): a (count, running mean, running
sum-of-squared-deviations) triple per tracked key. -/
structure RunningAggregator where
  n : ℕ
  mean : ℚ
  M2 : ℚ
deriving DecidableEq

/-- Modelled from the spec: the Welford update of §4.1:
`n ← n+1; δ ← value − mean; mean ← mean + δ/n; M2 ← M2 + δ·(value − mean)`. -/
def RunningAggregator.update (a : RunningAggregator) (x : ℚ) : RunningAggregator :=
  let n' : ℕ := a.n + 1
  let d : ℚ := x - a.mean
  let mean' : ℚ := a.mean + d / (n' : ℚ)
  ⟨n', mean', a.M2 + d * (x - mean')⟩

/-- One observation stream for a reducer: scalar observations keyed by the
reducer's key type (level, or level and time, or level, time and dof). -/
abbrev AggObs (K : Type) : Type := List (K × ℚ)

/-- Fold one scalar observation into the aggregator stored at key `k`
(creating a fresh zero aggregator if the key is new). -/
def aggUpdateAt {K : Type} [DecidableEq K]
    (aggs : List (K × RunningAggregator)) (k : K) (x : ℚ) :
    List (K × RunningAggregator) :=
  match assocGet aggs k with
  | some a => aggs.map (fun p => if p.1 = k then (k, a.update x) else p)
  | none => aggs ++ [(k, (RunningAggregator.mk 0 0 0).update x)]

/-- Modelled from the spec: a reducer's `update` folds its per-key scalar
observations of one Monte Carlo sample into its RunningAggregators
(§4.2-§4.5); only the aggregator triples persist. -/
def foldObs {K : Type} [DecidableEq K]
    (aggs : List (K × RunningAggregator)) (obs : AggObs K) :
    List (K × RunningAggregator) :=
  obs.foldl (fun ag kv => aggUpdateAt ag kv.1 kv.2) aggs

/-- A ProcessManager's state: one aggregator map per member reducer; its
`update` broadcasts to the members in order (§4.6). -/
def managerUpdate {K : Type} [DecidableEq K]
    (states : List (List (K × RunningAggregator))) (obsList : List (AggObs K)) :
    List (List (K × RunningAggregator)) :=
  List.zipWith foldObs states obsList

/-- The aggregator state of the seven managers built by `generate`
(run_TH3.py lines 98-124): only RunningAggregator triples, no trajectories. -/
structure PipelineState where
  tcVel : List (List (ℕ × RunningAggregator))
  tcPres : List (List (ℕ × RunningAggregator))
  stabVel : List (List (ℕ × RunningAggregator))
  stabPres : List (List (ℕ × RunningAggregator))
  energyVel : List (List ((ℕ × ℚ) × RunningAggregator))
  statsVel : List ((ℕ × ℚ × ℕ) × RunningAggregator)
  statsPres : List ((ℕ × ℚ × ℕ) × RunningAggregator)

/-- The scalar-observation kernels of the reducers (distances, norms, energy
functionals from `src/math`, which is external to src/): per reducer, a map
from the per-sample trajectories (and reference or noise where the reducer
takes one) to keyed scalar observations. -/
structure DriverKernels where
  tcVelObs : List (LvlMap Traj → Option Traj → AggObs ℕ)
  tcPresObs : List (LvlMap Traj → Option Traj → AggObs ℕ)
  stabVelObs : List (LvlMap Traj → AggObs ℕ)
  stabPresObs : List (LvlMap Traj → AggObs ℕ)
  energyVelObs : List (LvlMap Traj → LvlMap (List ℚ) → AggObs (ℕ × ℚ))
  statsVelObs : LvlMap Traj → AggObs (ℕ × ℚ × ℕ)
  statsPresObs : LvlMap Traj → AggObs (ℕ × ℚ × ℕ)

/-- The run-wide configuration flags read by `generate`
(global_configs.py lines 36-48 and line 32). -/
structure GlobalConfigs where
  TIME_CONVERGENCE : Bool
  STABILITY_CHECK : Bool
  ENERGY_CHECK : Bool
  STATISTICS_CHECK : Bool
  MC_SAMPLES : ℕ

/-- The body of the Monte Carlo loop of `generate` (run_TH3.py lines
133-164): given one sample, update the time-convergence managers (with the
finest-level trajectory as reference), the stability managers, the energy
manager and the statistics objects, in this order, each under its flag. -/
def driverStep (g : GlobalConfigs) (td : TimeDiscretisation) (kern : DriverKernels)
    (st : PipelineState) (s : Sample) : PipelineState :=
  let st1 :=
    if g.TIME_CONVERGENCE then
      { st with
        tcVel := managerUpdate st.tcVel
          (kern.tcVelObs.map (fun f => f s.vel (driverReference td s.vel))),
        tcPres := managerUpdate st.tcPres
          (kern.tcPresObs.map (fun f => f s.pres (driverReference td s.pres))) }
    else st
  let st2 :=
    if g.STABILITY_CHECK then
      { st1 with
        stabVel := managerUpdate st1.stabVel (kern.stabVelObs.map (fun f => f s.vel)),
        stabPres := managerUpdate st1.stabPres (kern.stabPresObs.map (fun f => f s.pres)) }
    else st1
  let st3 :=
    if g.ENERGY_CHECK then
      { st2 with
        energyVel := managerUpdate st2.energyVel
          (kern.energyVelObs.map (fun f => f s.vel s.noise)) }
    else st2
  if g.STATISTICS_CHECK then
    { st3 with
      statsVel := foldObs st3.statsVel (kern.statsVelObs s.vel),
      statsPres := foldObs st3.statsPres (kern.statsPresObs s.pres) }
  else st3

/-- All scalar observations the reducers extract from one sample; the only
channel through which a sample can influence the persistent state. -/
structure Observations where
  tcVel : List (AggObs ℕ)
  tcPres : List (AggObs ℕ)
  stabVel : List (AggObs ℕ)
  stabPres : List (AggObs ℕ)
  energyVel : List (AggObs (ℕ × ℚ))
  statsVel : AggObs (ℕ × ℚ × ℕ)
  statsPres : AggObs (ℕ × ℚ × ℕ)

/-- Extract all scalar observations of one sample. -/
def observe (td : TimeDiscretisation) (kern : DriverKernels) (s : Sample) :
    Observations where
  tcVel := kern.tcVelObs.map (fun f => f s.vel (driverReference td s.vel))
  tcPres := kern.tcPresObs.map (fun f => f s.pres (driverReference td s.pres))
  stabVel := kern.stabVelObs.map (fun f => f s.vel)
  stabPres := kern.stabPresObs.map (fun f => f s.pres)
  energyVel := kern.energyVelObs.map (fun f => f s.vel s.noise)
  statsVel := kern.statsVelObs s.vel
  statsPres := kern.statsPresObs s.pres

/-- The loop body expressed on observations alone: the same manager updates,
fed only scalars. -/
def driverStepFromObs (g : GlobalConfigs) (st : PipelineState) (o : Observations) :
    PipelineState :=
  let st1 :=
    if g.TIME_CONVERGENCE then
      { st with
        tcVel := managerUpdate st.tcVel o.tcVel,
        tcPres := managerUpdate st.tcPres o.tcPres }
    else st
  let st2 :=
    if g.STABILITY_CHECK then
      { st1 with
        stabVel := managerUpdate st1.stabVel o.stabVel,
        stabPres := managerUpdate st1.stabPres o.stabPres }
    else st1
  let st3 :=
    if g.ENERGY_CHECK then
      { st2 with energyVel := managerUpdate st2.energyVel o.energyVel }
    else st2
  if g.STATISTICS_CHECK then
    { st3 with
      statsVel := foldObs st3.statsVel o.statsVel,
      statsPres := foldObs st3.statsPres o.statsPres }
  else st3

/-- The Monte Carlo loop `for k in new_seeds:` (run_TH3.py lines 133-164):
each iteration rebinds the sample triple to `generate_one`'s fresh output
(`sampler k`) and updates the managers; only the manager state is carried
to the next iteration. -/
def driverLoop (g : GlobalConfigs) (td : TimeDiscretisation) (kern : DriverKernels)
    (sampler : ℕ → Sample) : PipelineState → List ℕ → PipelineState
  | st, [] => st
  | st, k :: ks =>
    driverLoop g td kern sampler (driverStep g td kern st (sampler k)) ks

/-- The aggregator state `generate` holds when the loop over
`range(MC_SAMPLES)` has finished. -/
def generateFinalState (g : GlobalConfigs) (td : TimeDiscretisation)
    (kern : DriverKernels) (sampler : ℕ → Sample) (init : PipelineState) :
    PipelineState :=
  driverLoop g td kern sampler init (List.range g.MC_SAMPLES)

/-- The seven ProcessManager/reducer groups `generate` constructs
(run_TH3.py lines 98-124). -/
inductive ManagerName
  | timeConvergenceVelocity
  | timeConvergencePressure
  | stabilityCheckVelocity
  | stabilityCheckPressure
  | energyCheckVelocity
  | statisticsVelocity
  | statisticsPressure
deriving DecidableEq

/-- The externally visible actions of `generate`, in program order. -/
inductive DriverEvent
  | generateSample (k : ℕ)
  | updateManager (m : ManagerName) (k : ℕ)
  | saveManager (m : ManagerName)
  | plotManager (m : ManagerName)
  | plotIndividual (m : ManagerName)
deriving DecidableEq

/-- The managers updated in each iteration, in the fixed program order of
run_TH3.py lines 141-164. -/
def enabledManagers (g : GlobalConfigs) : List ManagerName :=
  (if g.TIME_CONVERGENCE then
    [ManagerName.timeConvergenceVelocity, ManagerName.timeConvergencePressure]
   else []) ++
  (if g.STABILITY_CHECK then
    [ManagerName.stabilityCheckVelocity, ManagerName.stabilityCheckPressure]
   else []) ++
  (if g.ENERGY_CHECK then [ManagerName.energyCheckVelocity] else []) ++
  (if g.STATISTICS_CHECK then
    [ManagerName.statisticsVelocity, ManagerName.statisticsPressure]
   else [])

/-- One iteration of the Monte Carlo loop (run_TH3.py lines 133-164):
`generate_one`, then the four flag-guarded update blocks in program order. -/
def sampleBlock (g : GlobalConfigs) (k : ℕ) : List DriverEvent :=
  DriverEvent.generateSample k ::
    ((if g.TIME_CONVERGENCE then
        [DriverEvent.updateManager ManagerName.timeConvergenceVelocity k,
         DriverEvent.updateManager ManagerName.timeConvergencePressure k]
      else []) ++
     (if g.STABILITY_CHECK then
        [DriverEvent.updateManager ManagerName.stabilityCheckVelocity k,
         DriverEvent.updateManager ManagerName.stabilityCheckPressure k]
      else []) ++
     (if g.ENERGY_CHECK then
        [DriverEvent.updateManager ManagerName.energyCheckVelocity k]
      else []) ++
     (if g.STATISTICS_CHECK then
        [DriverEvent.updateManager ManagerName.statisticsVelocity k,
         DriverEvent.updateManager ManagerName.statisticsPressure k]
      else []))

/-- The storing phase after the loop (run_TH3.py lines 167-194): the save,
plot and plot_individual calls, in program order, each under its flag. -/
def finalBlock (g : GlobalConfigs) : List DriverEvent :=
  (if g.TIME_CONVERGENCE then
    [DriverEvent.saveManager ManagerName.timeConvergenceVelocity,
     DriverEvent.saveManager ManagerName.timeConvergencePressure]
   else []) ++
  (if g.STABILITY_CHECK then
    [DriverEvent.saveManager ManagerName.stabilityCheckVelocity,
     DriverEvent.saveManager ManagerName.stabilityCheckPressure]
   else []) ++
  (if g.ENERGY_CHECK then
    [DriverEvent.saveManager ManagerName.energyCheckVelocity,
     DriverEvent.plotManager ManagerName.energyCheckVelocity,
     DriverEvent.plotIndividual ManagerName.energyCheckVelocity]
   else []) ++
  (if g.STATISTICS_CHECK then
    [DriverEvent.saveManager ManagerName.statisticsVelocity,
     DriverEvent.saveManager ManagerName.statisticsPressure]
   else [])

/-- The full event trace of `generate` (run_TH3.py lines 129-194): the
Monte Carlo iterations for `k in range(MC_SAMPLES)` in order, then the
storing phase. -/
def generateTrace (g : GlobalConfigs) : List DriverEvent :=
  ((List.range g.MC_SAMPLES).map (sampleBlock g)).flatten ++ finalBlock g

/-- Whether an event belongs to the end-of-run reporting phase. -/
def isEndPhase : DriverEvent → Bool
  | DriverEvent.saveManager _ => true
  | DriverEvent.plotManager _ => true
  | DriverEvent.plotIndividual _ => true
  | _ => false

/-- An external solver whose default solve always converges, for concrete
instantiations. -/
def alwaysOkOracle (F : Type) : Oracle F :=
  ⟨fun _ => true, fun _ => ([0], [0]), fun _ => true, fun _ => ([0], [0])⟩

/-- An external solver whose default solve never converges but whose retry
solve succeeds, for concrete instantiations. -/
def neverConvergesOracle (F : Type) : Oracle F :=
  ⟨fun _ => false, fun _ => ([0], [0]), fun _ => true, fun _ => ([0], [0])⟩

/-- A one-dof space over a unit-area mesh: the constant-one pressure has
integral `1`. -/
def exampleSpace : SpaceDiscretisation := ⟨1, [1], [1]⟩

/-- Concrete shared inputs for instantiations. -/
def exampleGlobalIn : GlobalIn := ⟨[0], 1, 2, 1 / 10, 1⟩

/-- A concrete time discretisation with the repository's refinement levels. -/
def exampleTimeDisc : TimeDiscretisation := ⟨0, 1, REFINEMENT_LEVELS⟩

/-- A concrete level-to-trajectory map with entries at levels 2 and 9. -/
def exampleLvlTraj : LvlMap Traj := [(2, [(0, [1])]), (9, [(0, [2])])]

/-- A concrete configuration with every check enabled and one sample. -/
def exampleConfigs : GlobalConfigs := ⟨true, true, true, true, 1⟩

/-- Kernels that produce no observations, for concrete instantiations. -/
def emptyKernels : DriverKernels := ⟨[], [], [], [], [], fun _ => [], fun _ => []⟩

/-- The empty pipeline state, for concrete instantiations. -/
def emptyPipeline : PipelineState := ⟨[], [], [], [], [], [], []⟩

/-- The empty sample, for concrete instantiations. -/
def emptySample : Sample := ⟨[], [], []⟩

theorem increments_length (l : List ℚ) : (increments l).length = l.length - 1 := by
  induction l with
  | nil => rfl
  | cons a t ih =>
    cases t with
    | nil => rfl
    | cons b r =>
      simp only [increments, List.length_cons] at ih ⊢
      omega

theorem dotQ_replicate_zero (w : List ℚ) (n : ℕ) :
    dotQ w (List.replicate n 0) = 0 := by
  induction w generalizing n with
  | nil => simp [dotQ]
  | cons a t ih =>
    cases n with
    | zero => simp [dotQ]
    | succ m =>
      simp only [List.replicate_succ, dotQ, List.zipWith_cons_cons, List.sum_cons,
        mul_zero, zero_add]
      exact ih m

theorem dotQ_smul (w : List ℚ) (c : ℚ) (v : List ℚ) :
    dotQ w (smulQ c v) = c * dotQ w v := by
  induction w generalizing v with
  | nil => simp [dotQ]
  | cons a t ih =>
    cases v with
    | nil => simp [dotQ, smulQ]
    | cons x xs =>
      have h := ih xs
      simp only [dotQ, smulQ, List.map_cons, List.zipWith_cons_cons, List.sum_cons] at h ⊢
      rw [h]
      ring

theorem dotQ_sub (w p q : List ℚ) (hp : p.length = w.length)
    (hq : q.length = w.length) : dotQ w (subQ p q) = dotQ w p - dotQ w q := by
  induction w generalizing p q with
  | nil =>
    rw [List.length_eq_zero.mp hp, List.length_eq_zero.mp hq]
    simp [dotQ, subQ]
  | cons a t ih =>
    cases p with
    | nil => simp at hp
    | cons x xs =>
      cases q with
      | nil => simp at hq
      | cons y ys =>
        have h := ih xs ys (by simpa using hp) (by simpa using hq)
        simp only [subQ, dotQ, List.zipWith_cons_cons, List.sum_cons] at h ⊢
        rw [h]
        ring

theorem smulQ_length (c : ℚ) (v : List ℚ) : (smulQ c v).length = v.length := by
  simp [smulQ]

theorem integralP_meanCorrect (sp : SpaceDiscretisation) (p : FEFunction)
    (hp : p.length = sp.w.length) (hones : sp.ones.length = sp.w.length)
    (harea : dotQ sp.w sp.ones = 1) :
    integralP sp (meanCorrect sp p) = 0 := by
  unfold meanCorrect constRep integralP
  rw [dotQ_sub sp.w p (smulQ (dotQ sp.w p) sp.ones) hp
    (by rw [smulQ_length]; exact hones)]
  rw [dotQ_smul, harea]
  ring

theorem integralP_zeroPres (sp : SpaceDiscretisation) :
    integralP sp (zeroPres sp) = 0 := by
  unfold integralP zeroPres
  exact dotQ_replicate_zero sp.w sp.ones.length

theorem dictKeys_append (d e : Traj) : dictKeys (d ++ e) = dictKeys d ++ dictKeys e := by
  simp [dictKeys]

theorem dictInsert_fresh (d : Traj) (k : ℚ) (v : FEFunction)
    (h : k ∉ dictKeys d) : dictInsert d k v = d ++ [(k, v)] := by
  simp [dictInsert, h]

theorem runLoop_log {F S : Type} (A : AlgoSpec F S) (orac : Oracle F)
    (sp : SpaceDiscretisation) (g : GlobalIn) (tdf : Option Traj) :
    ∀ (incs noises : List ℚ) (idx : ℕ) (time : ℚ) (st : S) (detf : FEFunction)
      (lg : List (List SolverParams)) (tv tp : Traj),
      (∀ e ∈ lg, ∃ fd, e = attemptsFor A orac fd) →
      ∀ e ∈ (runLoop A orac sp g tdf idx time st detf incs noises lg tv tp).log,
        ∃ fd, e = attemptsFor A orac fd := by
  intro incs
  induction incs with
  | nil =>
    intro noises idx time st detf lg tv tp hlg e he
    simp only [runLoop] at he
    exact hlg e he
  | cons inc incs ih =>
    intro noises idx time st detf lg tv tp hlg e he
    cases noises with
    | nil =>
      simp only [runLoop] at he
      exact hlg e he
    | cons dW ns =>
      simp only [runLoop] at he
      cases hres : resolveForcing tdf detf (time + inc) with
      | error er =>
        rw [hres] at he
        simp only at he
        exact hlg e he
      | ok detf' =>
        rw [hres] at he
        simp only at he
        by_cases hdef : orac.defaultOk (A.formData st detf' inc dW g) = true
        · rw [if_pos hdef] at he
          refine ih ns (idx + 1) (time + inc) _ detf' _ _ _ ?_ e he
          intro e' he'
          rcases List.mem_append.mp he' with h | h
          · exact hlg e' h
          · rw [List.mem_singleton.mp h]
            exact ⟨A.formData st detf' inc dW g, by simp [attemptsFor, hdef]⟩
        · rw [if_neg hdef] at he
          by_cases hret : orac.retryOk (A.formData st detf' inc dW g) = true
          · rw [if_pos hret] at he
            refine ih ns (idx + 1) (time + inc) _ detf' _ _ _ ?_ e he
            intro e' he'
            rcases List.mem_append.mp he' with h | h
            · exact hlg e' h
            · rw [List.mem_singleton.mp h]
              exact ⟨A.formData st detf' inc dW g,
                by simp [attemptsFor, hdef]⟩
          · rw [if_neg hret] at he
            simp only at he
            rcases List.mem_append.mp he with h | h
            · exact hlg e h
            · rw [List.mem_singleton.mp h]
              exact ⟨A.formData st detf' inc dW g,
                by simp [attemptsFor, hdef]⟩

theorem runLoop_ok {F S : Type} (A : AlgoSpec F S) (orac : Oracle F)
    (sp : SpaceDiscretisation) (g : GlobalIn)
    (hsol : ∀ fd, orac.defaultOk fd = true ∨ orac.retryOk fd = true) :
    ∀ (rest : List ℚ) (tprev : ℚ) (idx : ℕ) (st : S) (detf : FEFunction)
      (noises : List ℚ) (lg : List (List SolverParams)) (tv tp : Traj),
      noises.length = rest.length →
      List.Chain' (· < ·) (tprev :: rest) →
      (∀ k ∈ dictKeys tv, k ≤ tprev) →
      (∀ k ∈ dictKeys tp, k ≤ tprev) →
      (runLoop A orac sp g none idx tprev st detf (increments (tprev :: rest)) noises lg tv tp).err = none ∧
      dictKeys (runLoop A orac sp g none idx tprev st detf (increments (tprev :: rest)) noises lg tv tp).tv = dictKeys tv ++ rest ∧
      dictKeys (runLoop A orac sp g none idx tprev st detf (increments (tprev :: rest)) noises lg tv tp).tp = dictKeys tp ++ rest ∧
      (∃ ext, (runLoop A orac sp g none idx tprev st detf (increments (tprev :: rest)) noises lg tv tp).tv = tv ++ ext) ∧
      (∃ ext, (runLoop A orac sp g none idx tprev st detf (increments (tprev :: rest)) noises lg tv tp).tp = tp ++ ext) ∧
      (∀ e ∈ (runLoop A orac sp g none idx tprev st detf (increments (tprev :: rest)) noises lg tv tp).tp,
        e ∈ tp ∨ ∃ fd, e.2 = meanCorrect sp (orac.solveDefault fd).2 ∨
          e.2 = meanCorrect sp (orac.solveRetry fd).2) := by
  intro rest
  induction rest with
  | nil =>
    intro tprev idx st detf noises lg tv tp hlen hchain htv htp
    refine ⟨rfl, by simp [runLoop], by simp [runLoop], ⟨[], by simp [runLoop]⟩,
      ⟨[], by simp [runLoop]⟩, ?_⟩
    intro e he
    simp only [runLoop] at he
    exact Or.inl he
  | cons b r ih =>
    intro tprev idx st detf noises lg tv tp hlen hchain htv htp
    cases noises with
    | nil => simp at hlen
    | cons dW ns =>
      have hns : ns.length = r.length := by simpa using hlen
      have hab : tprev < b := (List.chain'_cons.mp hchain).1
      have hchain' : List.Chain' (· < ·) (b :: r) := (List.chain'_cons.mp hchain).2
      have ht : tprev + (b - tprev) = b := by ring
      have hfreshv : b ∉ dictKeys tv := fun hb => absurd (htv b hb) (not_le.mpr hab)
      have hfreshp : b ∉ dictKeys tp := fun hb => absurd (htp b hb) (not_le.mpr hab)
      have hboundv : ∀ v, ∀ k ∈ dictKeys (dictInsert tv b v), k ≤ b := by
        intro v k hk
        rw [dictInsert_fresh tv b v hfreshv, dictKeys_append] at hk
        rcases List.mem_append.mp hk with h | h
        · exact le_of_lt (lt_of_le_of_lt (htv k h) hab)
        · simp only [dictKeys, List.map_cons, List.map_nil, List.mem_singleton] at h
          exact le_of_eq h
      have hboundp : ∀ v, ∀ k ∈ dictKeys (dictInsert tp b v), k ≤ b := by
        intro v k hk
        rw [dictInsert_fresh tp b v hfreshp, dictKeys_append] at hk
        rcases List.mem_append.mp hk with h | h
        · exact le_of_lt (lt_of_le_of_lt (htp k h) hab)
        · simp only [dictKeys, List.map_cons, List.map_nil, List.mem_singleton] at h
          exact le_of_eq h
      simp only [increments, runLoop, resolveForcing, ht]
      by_cases hdef : orac.defaultOk (A.formData st detf (b - tprev) dW g) = true
      · rw [if_pos hdef]
        have hrec := ih b (idx + 1)
          (A.updState idx st (orac.solveDefault (A.formData st detf (b - tprev) dW g)).1)
          detf ns (lg ++ [[SolverParams.blackboxDefault]])
          (dictInsert tv b (orac.solveDefault (A.formData st detf (b - tprev) dW g)).1)
          (dictInsert tp b (meanCorrect sp (orac.solveDefault (A.formData st detf (b - tprev) dW g)).2))
          hns hchain' (hboundv _) (hboundp _)
        refine ⟨hrec.1, ?_, ?_, ?_, ?_, ?_⟩
        · rw [hrec.2.1, dictInsert_fresh tv b _ hfreshv, dictKeys_append]
          simp [dictKeys]
        · rw [hrec.2.2.1, dictInsert_fresh tp b _ hfreshp, dictKeys_append]
          simp [dictKeys]
        · obtain ⟨ext, hext⟩ := hrec.2.2.2.1
          exact ⟨_ :: ext, by rw [hext, dictInsert_fresh tv b _ hfreshv, List.append_assoc]; rfl⟩
        · obtain ⟨ext, hext⟩ := hrec.2.2.2.2.1
          exact ⟨_ :: ext, by rw [hext, dictInsert_fresh tp b _ hfreshp, List.append_assoc]; rfl⟩
        · intro e he
          rcases hrec.2.2.2.2.2 e he with h | h
          · rw [dictInsert_fresh tp b _ hfreshp] at h
            rcases List.mem_append.mp h with h' | h'
            · exact Or.inl h'
            · refine Or.inr ⟨A.formData st detf (b - tprev) dW g, Or.inl ?_⟩
              rw [List.mem_singleton.mp h']
          · exact Or.inr h
      · have hret : orac.retryOk (A.formData st detf (b - tprev) dW g) = true :=
          (hsol _).resolve_left hdef
        rw [if_neg hdef, if_pos hret]
        have hrec := ih b (idx + 1)
          (A.updState idx st (orac.solveRetry (A.formData st detf (b - tprev) dW g)).1)
          detf ns (lg ++ [[SolverParams.blackboxDefault, A.retryParams]])
          (dictInsert tv b (orac.solveRetry (A.formData st detf (b - tprev) dW g)).1)
          (dictInsert tp b (meanCorrect sp (orac.solveRetry (A.formData st detf (b - tprev) dW g)).2))
          hns hchain' (hboundv _) (hboundp _)
        refine ⟨hrec.1, ?_, ?_, ?_, ?_, ?_⟩
        · rw [hrec.2.1, dictInsert_fresh tv b _ hfreshv, dictKeys_append]
          simp [dictKeys]
        · rw [hrec.2.2.1, dictInsert_fresh tp b _ hfreshp, dictKeys_append]
          simp [dictKeys]
        · obtain ⟨ext, hext⟩ := hrec.2.2.2.1
          exact ⟨_ :: ext, by rw [hext, dictInsert_fresh tv b _ hfreshv, List.append_assoc]; rfl⟩
        · obtain ⟨ext, hext⟩ := hrec.2.2.2.2.1
          exact ⟨_ :: ext, by rw [hext, dictInsert_fresh tp b _ hfreshp, List.append_assoc]; rfl⟩
        · intro e he
          rcases hrec.2.2.2.2.2 e he with h | h
          · rw [dictInsert_fresh tp b _ hfreshp] at h
            rcases List.mem_append.mp h with h' | h'
            · exact Or.inl h'
            · refine Or.inr ⟨A.formData st detf (b - tprev) dW g, Or.inr ?_⟩
              rw [List.mem_singleton.mp h']
          · exact Or.inr h

theorem runLoop_g_congr {F S : Type} (A : AlgoSpec F S) (orac : Oracle F)
    (sp : SpaceDiscretisation) (tdf : Option Traj) (g1 g2 : GlobalIn)
    (hform : ∀ st detf tau dW, A.formData st detf tau dW g1 = A.formData st detf tau dW g2) :
    ∀ (incs noises : List ℚ) (idx : ℕ) (time : ℚ) (st : S) (detf : FEFunction)
      (lg : List (List SolverParams)) (tv tp : Traj),
      runLoop A orac sp g1 tdf idx time st detf incs noises lg tv tp =
        runLoop A orac sp g2 tdf idx time st detf incs noises lg tv tp := by
  intro incs
  induction incs with
  | nil => intro noises idx time st detf lg tv tp; rfl
  | cons inc incs ih =>
    intro noises idx time st detf lg tv tp
    cases noises with
    | nil => rfl
    | cons dW ns =>
      simp only [runLoop]
      cases hres : resolveForcing tdf detf (time + inc) with
      | error er => rfl
      | ok detf' =>
        simp only [hform st detf' inc dW]
        by_cases hdef : orac.defaultOk (A.formData st detf' inc dW g2) = true
        · rw [if_pos hdef, if_pos hdef]
          exact ih ns (idx + 1) (time + inc) _ detf' _ _ _
        · rw [if_neg hdef, if_neg hdef]
          by_cases hret : orac.retryOk (A.formData st detf' inc dW g2) = true
          · rw [if_pos hret, if_pos hret]
            exact ih ns (idx + 1) (time + inc) _ detf' _ _ _
          · rw [if_neg hret, if_neg hret]

theorem runAlgo_g_congr {F S : Type} (A : AlgoSpec F S) (sp : SpaceDiscretisation)
    (orac : Oracle F) (time_grid noise_steps : List ℚ) (g1 g2 : GlobalIn)
    (u0 : FEFunction) (tdf : Option Traj)
    (hform : ∀ st detf tau dW, A.formData st detf tau dW g1 = A.formData st detf tau dW g2) :
    runAlgo A sp orac time_grid noise_steps g1 u0 tdf =
      runAlgo A sp orac time_grid noise_steps g2 u0 tdf := by
  unfold runAlgo
  by_cases hlen : (trajectory_to_incremets time_grid).2.length = noise_steps.length
  · rw [if_pos hlen, if_pos hlen, runLoop_g_congr A orac sp tdf g1 g2 hform]
  · rw [if_neg hlen, if_neg hlen]

/-- C10: the `noise_coefficient` parameter of `implicitEuler_mixedFEM_linearMulti`
and of `implicitEuler_mixedFEM_linearMulti_withSymGrad` does not occur in their
variational forms (the multiplicative noise term uses `uold` instead): for any
two values of `noise_coefficient` and otherwise identical inputs, both
functions return identical velocity and pressure trajectories. -/
theorem claim_C10_noise_coefficient_independent
    (sp : SpaceDiscretisation) (orac1 orac2 : Oracle LinearMultiData)
    (time_grid noise_steps : List ℚ) (u0 : FEFunction) (tdf : Option Traj)
    (nc1 nc2 : FEFunction) (ni pv kv Re : ℚ) :
    implicitEuler_mixedFEM_linearMulti sp orac1 time_grid noise_steps
        ⟨nc1, ni, pv, kv, Re⟩ u0 tdf =
      implicitEuler_mixedFEM_linearMulti sp orac1 time_grid noise_steps
        ⟨nc2, ni, pv, kv, Re⟩ u0 tdf ∧
    implicitEuler_mixedFEM_linearMulti_withSymGrad sp orac2 time_grid noise_steps
        ⟨nc1, ni, pv, kv, Re⟩ u0 tdf =
      implicitEuler_mixedFEM_linearMulti_withSymGrad sp orac2 time_grid noise_steps
        ⟨nc2, ni, pv, kv, Re⟩ u0 tdf := by
  constructor
  · exact runAlgo_g_congr implicitEuler_mixedFEM_linearMulti_spec sp orac1
      time_grid noise_steps ⟨nc1, ni, pv, kv, Re⟩ ⟨nc2, ni, pv, kv, Re⟩ u0 tdf
      (fun st detf tau dW => rfl)
  · exact runAlgo_g_congr implicitEuler_mixedFEM_linearMulti_withSymGrad_spec sp orac2
      time_grid noise_steps ⟨nc1, ni, pv, kv, Re⟩ ⟨nc2, ni, pv, kv, Re⟩ u0 tdf
      (fun st detf tau dW => rfl)

/-- C1: for every p-Stokes algorithm (any instantiation of the shared
skeleton, e.g. `implicitEuler_mixedFEM`), given a time grid whose entries are
strictly increasing and a noise-step list of matching length (one noise step
per time increment), and a solver that completes every step, the returned
time-to-velocity and time-to-pressure dicts have exactly one entry per
time-grid node (including the initial time): their key sequences, in
insertion order, equal the time grid and are strictly increasing. -/
theorem claim_C1_trajectory_keys {F S : Type} (A : AlgoSpec F S)
    (orac : Oracle F) (sp : SpaceDiscretisation) (g : GlobalIn)
    (t0 : ℚ) (rest noise_steps : List ℚ) (u0 : FEFunction)
    (hchain : List.Chain' (· < ·) (t0 :: rest))
    (hlen : noise_steps.length = rest.length)
    (hsol : ∀ fd, orac.defaultOk fd = true ∨ orac.retryOk fd = true) :
    (runAlgo A sp orac (t0 :: rest) noise_steps g u0 none).err = none ∧
    dictKeys (runAlgo A sp orac (t0 :: rest) noise_steps g u0 none).tv = t0 :: rest ∧
    dictKeys (runAlgo A sp orac (t0 :: rest) noise_steps g u0 none).tp = t0 :: rest ∧
    List.Chain' (· < ·) (dictKeys (runAlgo A sp orac (t0 :: rest) noise_steps g u0 none).tv) ∧
    List.Chain' (· < ·) (dictKeys (runAlgo A sp orac (t0 :: rest) noise_steps g u0 none).tp) := by
  have hcnt : (trajectory_to_incremets (t0 :: rest)).2.length = noise_steps.length := by
    simp only [trajectory_to_incremets]
    rw [increments_length, hlen]
    simp
  have hkey : ∀ x : FEFunction, ∀ k ∈ dictKeys (dictInsert [] t0 x), k ≤ t0 := by
    intro x k hk
    simp [dictInsert, dictKeys] at hk
    exact le_of_eq hk
  have hrun := runLoop_ok A orac sp g hsol rest t0 0 (A.initState u0) (zeroVel sp)
    noise_steps [] (dictInsert [] t0 (A.uoldOf (A.initState u0)))
    (dictInsert [] t0 (zeroPres sp)) (hlen) hchain (hkey _) (hkey _)
  have hkeys0 : ∀ x : FEFunction, dictKeys (dictInsert [] t0 x) = [t0] := by
    intro x; simp [dictInsert, dictKeys]
  unfold runAlgo
  rw [if_pos hcnt]
  simp only [trajectory_to_incremets] at hrun ⊢
  simp only [List.headD_cons]
  refine ⟨hrun.1, ?_, ?_, ?_, ?_⟩
  · rw [hrun.2.1, hkeys0]; rfl
  · rw [hrun.2.2.1, hkeys0]; rfl
  · rw [hrun.2.1, hkeys0]
    exact hchain
  · rw [hrun.2.2.1, hkeys0]
    exact hchain

/-- C2: for every p-Stokes algorithm, if the number of time increments derived
from the time grid differs from the number of noise steps, the run raises
`ValueError` with an empty solver log (no nonlinear solve was executed) and
with both trajectory dicts holding exactly the initial-time snapshot. -/
theorem claim_C2_length_mismatch {F S : Type} (A : AlgoSpec F S)
    (sp : SpaceDiscretisation) (orac : Oracle F) (g : GlobalIn)
    (u0 : FEFunction) (tdf : Option Traj) (t0 : ℚ) (rest noise_steps : List ℚ)
    (hlen : noise_steps.length ≠ rest.length) :
    runAlgo A sp orac (t0 :: rest) noise_steps g u0 tdf =
      ⟨[], [(t0, A.uoldOf (A.initState u0))], [(t0, zeroPres sp)],
       some PyError.valueError⟩ := by
  unfold runAlgo
  have hcnt : ¬ (trajectory_to_incremets (t0 :: rest)).2.length = noise_steps.length := by
    simp only [trajectory_to_incremets]
    rw [increments_length]
    simp only [List.length_cons, Nat.add_sub_cancel]
    exact fun h => hlen h.symm
  rw [if_neg hcnt]
  simp [trajectory_to_incremets, dictInsert, dictKeys]

/-- C9: every p-Stokes algorithm stores at each non-initial time the solved
pressure minus the constant field equal to its integral (`meanCorrect`), so
on a unit-area mesh (`integral of the constant-one field = 1`) every stored
pressure snapshot has zero spatial mean, and the snapshot stored at the
initial time is the identically-zero pressure field. -/
theorem claim_C9_pressure_mean {F S : Type} (A : AlgoSpec F S)
    (orac : Oracle F) (sp : SpaceDiscretisation) (g : GlobalIn)
    (t0 : ℚ) (rest noise_steps : List ℚ) (u0 : FEFunction)
    (hchain : List.Chain' (· < ·) (t0 :: rest))
    (hlen : noise_steps.length = rest.length)
    (hsol : ∀ fd, orac.defaultOk fd = true ∨ orac.retryOk fd = true)
    (harea : dotQ sp.w sp.ones = 1)
    (hones : sp.ones.length = sp.w.length)
    (hlenD : ∀ fd, ((orac.solveDefault fd).2).length = sp.w.length)
    (hlenR : ∀ fd, ((orac.solveRetry fd).2).length = sp.w.length) :
    (runAlgo A sp orac (t0 :: rest) noise_steps g u0 none).tp.head? =
      some (t0, zeroPres sp) ∧
    ∀ e ∈ (runAlgo A sp orac (t0 :: rest) noise_steps g u0 none).tp,
      integralP sp e.2 = 0 := by
  have hcnt : (trajectory_to_incremets (t0 :: rest)).2.length = noise_steps.length := by
    simp only [trajectory_to_incremets]
    rw [increments_length, hlen]
    simp
  have hkey : ∀ x : FEFunction, ∀ k ∈ dictKeys (dictInsert [] t0 x), k ≤ t0 := by
    intro x k hk
    simp [dictInsert, dictKeys] at hk
    exact le_of_eq hk
  have hrun := runLoop_ok A orac sp g hsol rest t0 0 (A.initState u0) (zeroVel sp)
    noise_steps [] (dictInsert [] t0 (A.uoldOf (A.initState u0)))
    (dictInsert [] t0 (zeroPres sp)) hlen hchain (hkey _) (hkey _)
  have hins : dictInsert [] t0 (zeroPres sp) = [(t0, zeroPres sp)] := by
    simp [dictInsert, dictKeys]
  unfold runAlgo
  rw [if_pos hcnt]
  simp only [trajectory_to_incremets, List.headD_cons] at hrun ⊢
  constructor
  · obtain ⟨ext, hext⟩ := hrun.2.2.2.2.1
    rw [hext, hins]
    rfl
  · intro e he
    rcases hrun.2.2.2.2.2 e he with h | h
    · rw [hins, List.mem_singleton] at h
      rw [h]
      exact integralP_zeroPres sp
    · obtain ⟨fd, h | h⟩ := h
      · rw [h]
        exact integralP_meanCorrect sp _ (hlenD fd) hones harea
      · rw [h]
        exact integralP_meanCorrect sp _ (hlenR fd) hones harea

/-- C3 counterexample: at a concrete step where the default blackbox solve
raises `ConvergenceError`,
`implicitEuler_mixedFEM_linearMulti_withSymGrad_approxOfAverages` retries
with `direct_solve_details` (parabolic.py line 420), not with the monitoring
parameters the claim asserts for every algorithm. -/
theorem claim_C3_counterexample :
    (implicitEuler_mixedFEM_linearMulti_withSymGrad_approxOfAverages exampleSpace
        (neverConvergesOracle ApproxAvgData) [0, 1] [1] exampleGlobalIn [0] none).log =
      [[SolverParams.blackboxDefault, SolverParams.direct_solve_details]] ∧
    SolverParams.direct_solve_details ≠ SolverParams.enable_monitoring := by
  constructor
  · rfl
  · decide

/-- C3 (amended): at every time step of every p-Stokes algorithm, the
nonlinear problem is first solved with the default blackbox solve; if and
only if that solve raises `ConvergenceError`, the same problem is solved a
second time — with `enable_monitoring` for every algorithm except
`implicitEuler_mixedFEM_linearMulti_withSymGrad_approxOfAverages`, whose
retry uses `direct_solve_details` — and no third attempt is made. -/
theorem claim_C3_amended :
    (∀ (F S : Type) (A : AlgoSpec F S) (orac : Oracle F) (sp : SpaceDiscretisation)
       (g : GlobalIn) (time_grid noise_steps : List ℚ) (u0 : FEFunction)
       (tdf : Option Traj),
       ∀ e ∈ (runAlgo A sp orac time_grid noise_steps g u0 tdf).log,
         ∃ fd, e = attemptsFor A orac fd) ∧
    implicitEuler_mixedFEM_spec.retryParams = SolverParams.enable_monitoring ∧
    implicitEuler_mixedFEM_linearMulti_spec.retryParams = SolverParams.enable_monitoring ∧
    implicitEuler_mixedFEM_linearMulti_withSymGrad_spec.retryParams = SolverParams.enable_monitoring ∧
    CrankNicolson_mixedFEM_strato_transportNoise_spec.retryParams = SolverParams.enable_monitoring ∧
    CrankNicolson_mixedFEM_strato_transportNoise_withTemamsym_spec.retryParams = SolverParams.enable_monitoring ∧
    impliciteEuler_mixedFEM_ito_transportNoise_spec.retryParams = SolverParams.enable_monitoring ∧
    impliciteEuler_mixedFEM_strato_transportNoise_spec.retryParams = SolverParams.enable_monitoring ∧
    impliciteEuler_mixedFEM_strato_transportNoise_withTemamsym_spec.retryParams = SolverParams.enable_monitoring ∧
    CrankNicolson_mixedFEM_strato_transportNoise_withAntisym_spec.retryParams = SolverParams.enable_monitoring ∧
    implicitEuler_mixedFEM_linearMulti_withSymGrad_approxOfAverages_spec.retryParams = SolverParams.direct_solve_details := by
  refine ⟨?_, rfl, rfl, rfl, rfl, rfl, rfl, rfl, rfl, rfl, rfl⟩
  intro F S A orac sp g time_grid noise_steps u0 tdf e he
  unfold runAlgo at he
  by_cases hlen : (trajectory_to_incremets time_grid).2.length = noise_steps.length
  · rw [if_pos hlen] at he
    refine runLoop_log A orac sp g tdf _ _ _ _ _ _ _ _ _ ?_ e he
    intro x hx
    simp at hx
  · rw [if_neg hlen] at he
    simp at he

/-- C4: `CrankNicolson_mixedFEM_strato_transportNoise_withAntisym` is
selectable through `get_algorithm_by_name` yet returns a triple of dicts
(line 725), contradicting its own `tuple[dict, dict]` annotation and the
`pStokesAlgorithm` alias, so `generate_one`'s two-element unpacking raises
`ValueError`; a pair-returning algorithm such as `implicitEuler_mixedFEM`
unpacks fine. -/
theorem claim_C4_return_arity :
    get_algorithm_by_name
        "Crank Nicolson mixed FEM Stratonovich Transport Noise with anti-symmetrisation" =
      Except.ok AlgName.CrankNicolson_mixedFEM_strato_transportNoise_withAntisym ∧
    (CrankNicolson_mixedFEM_strato_transportNoise_withAntisym_return exampleSpace
        (alwaysOkOracle TransportData) [0, 1] [1] exampleGlobalIn [0] none).length = 3 ∧
    unpackPair (CrankNicolson_mixedFEM_strato_transportNoise_withAntisym_return
        exampleSpace (alwaysOkOracle TransportData) [0, 1] [1] exampleGlobalIn [0] none) =
      Except.error PyError.valueError ∧
    (implicitEuler_mixedFEM_return exampleSpace (alwaysOkOracle MixedFEMData)
        [0, 1] [1] exampleGlobalIn [0] none).length = 2 := by
  refine ⟨rfl, rfl, rfl, rfl⟩

/-- C7: the three name-to-implementation converters fail fast:
`get_algorithm_by_name`, `get_function` and `get_mesh` raise
`NotImplementedError` on every configuration string outside their recognized
set, and return an implementation for every recognized one. -/
theorem claim_C7_converters_fail_fast :
    (∀ s ∈ recognizedAlgorithmNames, ∃ a, get_algorithm_by_name s = Except.ok a) ∧
    (∀ s : String, s ∉ recognizedAlgorithmNames →
      get_algorithm_by_name s = Except.error PyError.notImplementedError) ∧
    (∀ s ∈ recognizedFunctionNames, ∃ f, get_function s = Except.ok f) ∧
    (∀ s : String, s ∉ recognizedFunctionNames →
      get_function s = Except.error PyError.notImplementedError) ∧
    (∀ n r : String, recognizedMeshConfig n r = true → ∃ m, get_mesh n r = Except.ok m) ∧
    (∀ n r : String, recognizedMeshConfig n r = false →
      get_mesh n r = Except.error PyError.notImplementedError) := by
  refine ⟨?_, ?_, ?_, ?_, ?_, ?_⟩
  · intro s hs
    simp only [recognizedAlgorithmNames, List.mem_cons, List.not_mem_nil, or_false] at hs
    rcases hs with rfl | rfl | rfl | rfl | rfl | rfl | rfl | rfl | rfl | rfl <;>
      exact ⟨_, rfl⟩
  · intro s hs
    simp only [recognizedAlgorithmNames, List.mem_cons, List.not_mem_nil, or_false,
      not_or] at hs
    obtain ⟨h1, h2, h3, h4, h5, h6, h7, h8, h9, h10⟩ := hs
    simp only [get_algorithm_by_name, if_neg h1, if_neg h2, if_neg h3, if_neg h4,
      if_neg h5, if_neg h6, if_neg h7, if_neg h8, if_neg h9, if_neg h10]
  · intro s hs
    simp only [recognizedFunctionNames, List.mem_cons, List.not_mem_nil, or_false] at hs
    rcases hs with rfl | rfl | rfl | rfl | rfl | rfl | rfl | rfl | rfl | rfl | rfl |
      rfl | rfl | rfl | rfl | rfl | rfl <;> exact ⟨_, rfl⟩
  · intro s hs
    simp only [recognizedFunctionNames, List.mem_cons, List.not_mem_nil, or_false,
      not_or] at hs
    obtain ⟨h1, h2, h3, h4, h5, h6, h7, h8, h9, h10, h11, h12, h13, h14, h15, h16, h17⟩ := hs
    simp only [get_function, if_neg h1, if_neg h2, if_neg h3, if_neg h4, if_neg h5,
      if_neg h6, if_neg h7, if_neg h8, if_neg h9, if_neg h10, if_neg h11, if_neg h12,
      if_neg h13, if_neg h14, if_neg h15, if_neg h16, if_neg h17]
  · intro n r h
    simp only [recognizedMeshConfig, decide_eq_true_eq] at h
    rcases h with rfl | ⟨rfl, hr⟩
    · exact ⟨_, rfl⟩
    · rcases hr with rfl | rfl | rfl <;> exact ⟨_, rfl⟩
  · intro n r h
    simp only [recognizedMeshConfig, decide_eq_false_iff_not, not_or, not_and] at h
    obtain ⟨hn1, himp⟩ := h
    unfold get_mesh
    rw [if_neg hn1]
    by_cases hn2 : n = "unit_square_non_singular"
    · have hr := himp hn2
      push_neg at hr
      obtain ⟨hr1, hr2, hr3⟩ := hr
      rw [if_pos hn2, if_neg hr1, if_neg hr2, if_neg hr3]
    · rw [if_neg hn2]
      by_cases hn3 : n = "unit L-shape"
      · rw [if_pos hn3]
      · rw [if_neg hn3]

theorem chain_le_getLast :
    ∀ (l : List ℕ), List.Chain' (· < ·) l →
      ∀ lfin, l.getLast? = some lfin → ∀ x ∈ l, x ≤ lfin := by
  intro l
  induction l with
  | nil => intro _ lfin h; simp at h
  | cons a t ih =>
    intro hchain lfin hlast x hx
    cases t with
    | nil =>
      simp only [List.getLast?_singleton, Option.some.injEq] at hlast
      rw [List.mem_singleton.mp hx, hlast]
    | cons b r =>
      have h1 : a < b := (List.chain'_cons.mp hchain).1
      have h2 := ih (List.chain'_cons.mp hchain).2 lfin (by simpa using hlast)
      rcases List.mem_cons.mp hx with rfl | hx'
      · exact le_trans (le_of_lt h1) (h2 b (List.mem_cons_self b r))
      · exact h2 x hx'

/-- C5: in the driver's time-convergence update, the reference trajectory
handed to `TimeComparison.update` is exactly the entry of the per-sample
velocity (resp. pressure) map at the last refinement level of the run's
`TimeDiscretisation`; with levels sorted by increasing resolution, the last
level is the finest (the maximum). -/
theorem claim_C5_reference_is_finest (td : TimeDiscretisation)
    (refVel refPres : LvlMap Traj)
    (hne : td.refinement_levels ≠ [])
    (hchain : List.Chain' (· < ·) td.refinement_levels) :
    ∃ lfin, td.refinement_levels.getLast? = some lfin ∧
      driverReference td refVel = assocGet refVel lfin ∧
      driverReference td refPres = assocGet refPres lfin ∧
      ∀ l ∈ td.refinement_levels, l ≤ lfin := by
  refine ⟨td.refinement_levels.getLast hne, List.getLast?_eq_getLast _ hne, ?_, ?_, ?_⟩
  · unfold driverReference pyNegOneIndex
    rw [List.getLast?_eq_getLast _ hne]
    rfl
  · unfold driverReference pyNegOneIndex
    rw [List.getLast?_eq_getLast _ hne]
    rfl
  · exact chain_le_getLast _ hchain _ (List.getLast?_eq_getLast _ hne)

theorem sampleBlock_eq (g : GlobalConfigs) (k : ℕ) :
    sampleBlock g k = DriverEvent.generateSample k ::
      (enabledManagers g).map (fun m => DriverEvent.updateManager m k) := by
  rcases g with ⟨tc, sc, ec, stc, mc⟩
  cases tc <;> cases sc <;> cases ec <;> cases stc <;>
    simp [sampleBlock, enabledManagers]

theorem sampleBlock_not_endPhase (g : GlobalConfigs) (k : ℕ) :
    ∀ e ∈ sampleBlock g k, isEndPhase e = false := by
  intro e he
  rw [sampleBlock_eq] at he
  rcases List.mem_cons.mp he with rfl | h
  · rfl
  · obtain ⟨m, _, rfl⟩ := List.mem_map.mp h
    rfl

theorem finalBlock_endPhase (g : GlobalConfigs) :
    ∀ e ∈ finalBlock g, isEndPhase e = true := by
  have h : (finalBlock g).all isEndPhase = true := by
    rcases g with ⟨tc, sc, ec, stc, mc⟩
    cases tc <;> cases sc <;> cases ec <;> cases stc <;> rfl
  exact fun e he => List.all_eq_true.mp h e he

theorem generateTrace_count_flatten (g : GlobalConfigs) (ev : DriverEvent)
    (hev : isEndPhase ev = true) :
    (((List.range g.MC_SAMPLES).map (sampleBlock g)).flatten).count ev = 0 := by
  rw [List.count_eq_zero]
  intro hmem
  obtain ⟨l, hl, hml⟩ := List.mem_flatten.mp hmem
  obtain ⟨k, _, rfl⟩ := List.mem_map.mp hl
  have h := sampleBlock_not_endPhase g k ev hml
  rw [hev] at h
  exact absurd h (by simp)

/-- C6: the driver loop is sequential and synchronous — the trace of
`generate` is, per Monte Carlo iteration `k` in increasing order, one sample
generation followed by the updates of the enabled managers in a fixed order,
with the save/plot/plot_individual calls only in the block appended after
the whole loop, and each such call made at most once per manager. -/
theorem claim_C6_driver_order (g : GlobalConfigs) :
    generateTrace g =
      ((List.range g.MC_SAMPLES).map (fun k =>
          DriverEvent.generateSample k ::
            (enabledManagers g).map (fun m => DriverEvent.updateManager m k))).flatten
        ++ finalBlock g ∧
    (∀ k : ℕ, ∀ e ∈ sampleBlock g k, isEndPhase e = false) ∧
    (∀ e ∈ finalBlock g, isEndPhase e = true) ∧
    (∀ m : ManagerName,
      (generateTrace g).count (DriverEvent.saveManager m) ≤ 1 ∧
      (generateTrace g).count (DriverEvent.plotManager m) ≤ 1 ∧
      (generateTrace g).count (DriverEvent.plotIndividual m) ≤ 1) := by
  have hblock : sampleBlock g = fun k => DriverEvent.generateSample k ::
      (enabledManagers g).map (fun m => DriverEvent.updateManager m k) :=
    funext (sampleBlock_eq g)
  have hnodup : (finalBlock g).Nodup := by
    rcases g with ⟨tc, sc, ec, stc, mc⟩
    have h0 : finalBlock ⟨tc, sc, ec, stc, mc⟩ = finalBlock ⟨tc, sc, ec, stc, 0⟩ := rfl
    rw [h0]
    cases tc <;> cases sc <;> cases ec <;> cases stc <;> decide
  have hcount : ∀ ev, isEndPhase ev = true → (generateTrace g).count ev ≤ 1 := by
    intro ev hev
    unfold generateTrace
    rw [List.count_append, generateTrace_count_flatten g ev hev, Nat.zero_add]
    exact List.nodup_iff_count_le_one.mp hnodup ev
  refine ⟨?_, sampleBlock_not_endPhase g, finalBlock_endPhase g, ?_⟩
  · unfold generateTrace
    rw [hblock]
  · intro m
    exact ⟨hcount _ rfl, hcount _ rfl, hcount _ rfl⟩

/-- C8: the per-sample trajectories are owned transiently by the driver loop:
the loop is a fold that carries only the managers' aggregator state
(`PipelineState`), each iteration rebinds the sample to `generate_one`'s
fresh output, and the loop body influences the carried state only through
the reducers' scalar observations of the current sample — two samples with
equal observations produce identical successor states, so nothing of a
sample's trajectories persists past its iteration. -/
theorem claim_C8_transient_ownership (g : GlobalConfigs) (td : TimeDiscretisation)
    (kern : DriverKernels) (sampler : ℕ → Sample) :
    (∀ (st : PipelineState) (ks : List ℕ),
      driverLoop g td kern sampler st ks =
        ks.foldl (fun st' k => driverStep g td kern st' (sampler k)) st) ∧
    (∀ (st : PipelineState) (s : Sample),
      driverStep g td kern st s = driverStepFromObs g st (observe td kern s)) ∧
    (∀ (st : PipelineState) (s1 s2 : Sample),
      observe td kern s1 = observe td kern s2 →
        driverStep g td kern st s1 = driverStep g td kern st s2) := by
  refine ⟨?_, fun st s => rfl, ?_⟩
  · intro st ks
    induction ks generalizing st with
    | nil => rfl
    | cons k ks ih =>
      simp only [driverLoop, List.foldl_cons]
      exact ih _
  · intro st s1 s2 hobs
    show driverStepFromObs g st (observe td kern s1) =
      driverStepFromObs g st (observe td kern s2)
    rw [hobs]

/-- Witness for C1 at a concrete grid `[0, 1/2, 1]` with two noise steps. -/
theorem claim_C1_witness :
    List.Chain' (· < ·) ((0 : ℚ) :: [1 / 2, 1]) ∧
    ([1, 1] : List ℚ).length = ([1 / 2, 1] : List ℚ).length ∧
    ((runAlgo implicitEuler_mixedFEM_spec exampleSpace (alwaysOkOracle MixedFEMData)
        ((0 : ℚ) :: [1 / 2, 1]) [1, 1] exampleGlobalIn [0] none).err = none ∧
      dictKeys (runAlgo implicitEuler_mixedFEM_spec exampleSpace
        (alwaysOkOracle MixedFEMData) ((0 : ℚ) :: [1 / 2, 1]) [1, 1] exampleGlobalIn
        [0] none).tv = (0 : ℚ) :: [1 / 2, 1] ∧
      dictKeys (runAlgo implicitEuler_mixedFEM_spec exampleSpace
        (alwaysOkOracle MixedFEMData) ((0 : ℚ) :: [1 / 2, 1]) [1, 1] exampleGlobalIn
        [0] none).tp = (0 : ℚ) :: [1 / 2, 1] ∧
      List.Chain' (· < ·) (dictKeys (runAlgo implicitEuler_mixedFEM_spec exampleSpace
        (alwaysOkOracle MixedFEMData) ((0 : ℚ) :: [1 / 2, 1]) [1, 1] exampleGlobalIn
        [0] none).tv) ∧
      List.Chain' (· < ·) (dictKeys (runAlgo implicitEuler_mixedFEM_spec exampleSpace
        (alwaysOkOracle MixedFEMData) ((0 : ℚ) :: [1 / 2, 1]) [1, 1] exampleGlobalIn
        [0] none).tp)) :=
  ⟨by simp only [List.chain'_cons, List.chain'_singleton, and_true]; norm_num, rfl,
   claim_C1_trajectory_keys implicitEuler_mixedFEM_spec (alwaysOkOracle MixedFEMData)
     exampleSpace exampleGlobalIn 0 [1 / 2, 1] [1, 1] [0]
     (by simp only [List.chain'_cons, List.chain'_singleton, and_true]; norm_num) rfl
     (fun _ => Or.inl rfl)⟩

/-- Witness for C2: one time increment against an empty noise list. -/
theorem claim_C2_witness :
    (([] : List ℚ).length ≠ ([1] : List ℚ).length) ∧
    runAlgo implicitEuler_mixedFEM_spec exampleSpace (alwaysOkOracle MixedFEMData)
        ((0 : ℚ) :: [1]) [] exampleGlobalIn [0] none =
      ⟨[], [(0, implicitEuler_mixedFEM_spec.uoldOf
              (implicitEuler_mixedFEM_spec.initState [0]))],
       [(0, zeroPres exampleSpace)], some PyError.valueError⟩ :=
  ⟨by decide,
   claim_C2_length_mismatch implicitEuler_mixedFEM_spec exampleSpace
     (alwaysOkOracle MixedFEMData) exampleGlobalIn [0] none 0 [1] [] (by decide)⟩

/-- Witness for C3 (amended) at a concrete run whose single step succeeded on
the default solve. -/
theorem claim_C3_witness :
    ([SolverParams.blackboxDefault] ∈
      (runAlgo implicitEuler_mixedFEM_spec exampleSpace (alwaysOkOracle MixedFEMData)
        [0, 1] [1] exampleGlobalIn [0] none).log) ∧
    ∃ fd, [SolverParams.blackboxDefault] =
      attemptsFor implicitEuler_mixedFEM_spec (alwaysOkOracle MixedFEMData) fd := by
  constructor
  · decide
  · exact claim_C3_amended.1 MixedFEMData FEFunction implicitEuler_mixedFEM_spec
      (alwaysOkOracle MixedFEMData) exampleSpace exampleGlobalIn [0, 1] [1] [0] none
      [SolverParams.blackboxDefault] (by decide)

/-- Witness for C5 with the repository's refinement levels `[2, ..., 9]`. -/
theorem claim_C5_witness :
    exampleTimeDisc.refinement_levels ≠ [] ∧
    List.Chain' (· < ·) exampleTimeDisc.refinement_levels ∧
    driverReference exampleTimeDisc exampleLvlTraj = assocGet exampleLvlTraj 9 := by
  have hch : List.Chain' (· < ·) exampleTimeDisc.refinement_levels := by
    show List.Chain' (· < ·) ([2, 3, 4, 5, 6, 7, 8, 9] : List ℕ)
    simp only [List.chain'_cons, List.chain'_singleton, and_true]
    decide
  refine ⟨by decide, hch, ?_⟩
  obtain ⟨lfin, h1, h2, _, _⟩ := claim_C5_reference_is_finest exampleTimeDisc
    exampleLvlTraj exampleLvlTraj (by decide) hch
  have h9 : exampleTimeDisc.refinement_levels.getLast? = some 9 := by decide
  rw [h9] at h1
  rw [Option.some.injEq] at h1
  rw [h1]
  exact h2

/-- Witness for C6 at the configuration with every check enabled and one
sample. -/
theorem claim_C6_witness :
    (DriverEvent.saveManager ManagerName.timeConvergenceVelocity ∈
      finalBlock exampleConfigs) ∧
    isEndPhase (DriverEvent.saveManager ManagerName.timeConvergenceVelocity) = true ∧
    (generateTrace exampleConfigs).count
      (DriverEvent.saveManager ManagerName.timeConvergenceVelocity) ≤ 1 :=
  ⟨by decide,
   (claim_C6_driver_order exampleConfigs).2.2.1 _ (by decide),
   ((claim_C6_driver_order exampleConfigs).2.2.2
      ManagerName.timeConvergenceVelocity).1⟩

/-- Witness for C7 at a concrete unrecognized algorithm name, a recognized
function name and the unavailable `"unit L-shape"` mesh. -/
theorem claim_C7_witness :
    ("bogus name" ∉ recognizedAlgorithmNames) ∧
    get_algorithm_by_name "bogus name" = Except.error PyError.notImplementedError ∧
    ("zero" ∈ recognizedFunctionNames) ∧
    get_function "zero" = Except.ok PredefName.zero ∧
    recognizedMeshConfig "unit L-shape" "low" = false ∧
    get_mesh "unit L-shape" "low" = Except.error PyError.notImplementedError :=
  ⟨by decide,
   claim_C7_converters_fail_fast.2.1 "bogus name" (by decide),
   by decide, rfl, by decide,
   claim_C7_converters_fail_fast.2.2.2.2.2 "unit L-shape" "low" (by decide)⟩

/-- Witness for C8 at concrete empty kernels, pipeline and sampler. -/
theorem claim_C8_witness :
    driverLoop exampleConfigs exampleTimeDisc emptyKernels (fun _ => emptySample)
        emptyPipeline [0] =
      ([0] : List ℕ).foldl (fun st' k => driverStep exampleConfigs exampleTimeDisc
        emptyKernels st' ((fun _ => emptySample) k)) emptyPipeline ∧
    driverStep exampleConfigs exampleTimeDisc emptyKernels emptyPipeline emptySample =
      driverStepFromObs exampleConfigs emptyPipeline
        (observe exampleTimeDisc emptyKernels emptySample) ∧
    driverStep exampleConfigs exampleTimeDisc emptyKernels emptyPipeline emptySample =
      driverStep exampleConfigs exampleTimeDisc emptyKernels emptyPipeline emptySample :=
  ⟨(claim_C8_transient_ownership exampleConfigs exampleTimeDisc emptyKernels
      (fun _ => emptySample)).1 emptyPipeline [0],
   (claim_C8_transient_ownership exampleConfigs exampleTimeDisc emptyKernels
      (fun _ => emptySample)).2.1 emptyPipeline emptySample,
   (claim_C8_transient_ownership exampleConfigs exampleTimeDisc emptyKernels
      (fun _ => emptySample)).2.2 emptyPipeline emptySample emptySample rfl⟩

/-- Witness for C9 at a concrete one-step run on the unit-area one-dof space:
the initial pressure snapshot is the zero field and it has zero mean. -/
theorem claim_C9_witness :
    (runAlgo implicitEuler_mixedFEM_spec exampleSpace (alwaysOkOracle MixedFEMData)
        ((0 : ℚ) :: [1]) [1] exampleGlobalIn [0] none).tp.head? =
      some (0, zeroPres exampleSpace) ∧
    integralP exampleSpace (zeroPres exampleSpace) = 0 := by
  have h := claim_C9_pressure_mean implicitEuler_mixedFEM_spec
    (alwaysOkOracle MixedFEMData) exampleSpace exampleGlobalIn 0 [1] [1] [0]
    (by simp only [List.chain'_cons, List.chain'_singleton, and_true]; norm_num) rfl
    (fun _ => Or.inl rfl) (by norm_num [dotQ, exampleSpace]) rfl
    (fun _ => rfl) (fun _ => rfl)
  refine ⟨h.1, ?_⟩
  have hmem : ((0 : ℚ), zeroPres exampleSpace) ∈
      (runAlgo implicitEuler_mixedFEM_spec exampleSpace (alwaysOkOracle MixedFEMData)
        ((0 : ℚ) :: [1]) [1] exampleGlobalIn [0] none).tp :=
    List.mem_of_mem_head? (by rw [h.1]; rfl)
  exact h.2 (0, zeroPres exampleSpace) hmem
